import Mathlib

/-!
Verification development for the region-reconciliation and filtering logic of
the Ghana infectious-disease dashboard (`dashboard_app.py`).

Modelling conventions:

* A pandas `DataFrame` of observation rows is a `List Row`; boolean-mask
  filtering is `List.filter`, which (like pandas indexing) keeps row order.
* Dates (`pandas Timestamp.date`) are `Nat` day numbers: the program only
  ever compares dates, so any linearly ordered scalar models them faithfully.
* Region strings in this data set are ASCII; Python `str.upper`, `str.lower`,
  `str.strip` and `str.title` are modelled character-wise on `String.data`
  with `Char.toUpper` / `Char.toLower`, which move exactly the basic latin
  letters, as the Python functions do on this data.
* Metric values are `ℚ`; the only numeric constants the claims touch are the
  radar-chart scores, which are exact decimal literals.
-/

namespace Ghana

/-! ## Python string primitives used by the dashboard -/

/-- Model of Python `str.upper` (character-wise on basic latin letters). -/
def pyUpper (s : String) : String := ⟨s.data.map Char.toUpper⟩

/-- Model of Python `str.lower` (character-wise on basic latin letters). -/
def pyLower (s : String) : String := ⟨s.data.map Char.toLower⟩

/-- Model of Python `str.strip`: drop leading and trailing whitespace. -/
def pyStrip (s : String) : String :=
  ⟨((s.data.dropWhile Char.isWhitespace).reverse.dropWhile Char.isWhitespace).reverse⟩

/-- Helper for `pyTitle`: the boolean argument records whether the previous
character was alphabetic (Python title-case state). -/
def pyTitleAux : List Char → Bool → List Char
  | [], _ => []
  | c :: cs, prevAlpha =>
    if c.isAlpha then
      (if prevAlpha then c.toLower else c.toUpper) :: pyTitleAux cs true
    else
      c :: pyTitleAux cs false

/-- Model of Python `str.title`: first letter of every word upper-cased,
remaining letters lower-cased, word boundaries at non-alphabetic characters. -/
def pyTitle (s : String) : String := ⟨pyTitleAux s.data false⟩

/-- Helper for `stripRegionWord`: remove every (case-insensitive, non
overlapping, left-to-right) occurrence of the 7-character token `" region"`,
as pandas `str.replace(' Region', '', case=False)` does. The second argument
counts characters of a recognised occurrence still to be skipped, keeping the
recursion structural on the list. -/
def stripRegionAux : List Char → Nat → List Char
  | [], _ => []
  | _ :: cs, Nat.succ skip => stripRegionAux cs skip
  | c :: cs, 0 =>
    if (List.take 7 (c :: cs)).map Char.toLower = [' ', 'r', 'e', 'g', 'i', 'o', 'n'] then
      stripRegionAux cs 6
    else
      c :: stripRegionAux cs 0

/-- Model of `gdf['shapeName'].str.replace(' Region', '', case=False)`. -/
def stripRegionWord (s : String) : String := ⟨stripRegionAux s.data 0⟩

/-! ## Data model -/

/-- ObservationRow: one row of the primary time-series table, after parsing —
a region key, a date, and the numeric columns as a name-value association
list (`hiv_incidence`, `malaria_incidence`, …). -/
structure Row where
  region : String
  date : Nat
  values : List (String × ℚ)
deriving DecidableEq, Repr

/-- BoundaryFeature: one GeoJSON feature, a `shapeName` property plus its
polygon ring of (lon, lat) coordinates. -/
structure Feature where
  shapeName : String
  geometry : List (ℚ × ℚ)
deriving DecidableEq, Repr

/-- ForecastRow: one row of `hiv_predicted_2030_by_region.csv`. -/
structure ForecastRow where
  region : String
  predicted : ℚ
deriving DecidableEq, Repr

/-- FilterState: the sidebar selections (region subset, disease subset,
inclusive date window). -/
structure FilterState where
  regions : List String
  diseases : List String
  dateStart : Nat
  dateEnd : Nat
deriving DecidableEq, Repr

/-- The fixed 10-element canonical legacy-region set (upper-case convention,
as the loaders store it). -/
def canonicalRegions : List String :=
  ["GREATER ACCRA", "ASHANTI", "WESTERN", "CENTRAL", "EASTERN",
   "VOLTA", "NORTHERN", "UPPER EAST", "UPPER WEST", "BRONG-AHAFO"]

/-! ## Loaders (`load_main_data`, `load_geojson`, `load_forecast`) -/

/-- Model of `load_main_data`: parse rows, then `df['region'] =
df['region'].str.upper()`. Parsing is the external collaborator, so the
function takes the parsed rows. -/
def load_main_data (rows : List Row) : List Row :=
  rows.map (fun r => { r with region := pyUpper r.region })

/-- Model of `load_geojson`: upper-case every feature's `shapeName`. -/
def load_geojson (fs : List Feature) : List Feature :=
  fs.map (fun f => { f with shapeName := pyUpper f.shapeName })

/-- Model of `load_forecast`: upper-case every forecast row's region. -/
def load_forecast (frs : List ForecastRow) : List ForecastRow :=
  frs.map (fun r => { r with region := pyUpper r.region })

/-! ## Sidebar filter views (`df_time`, `df_single`, Section 1) -/

/-- Model of `df_time`: boolean-mask filter keeping rows whose region is in
the sidebar selection and whose date lies in the inclusive window. -/
def df_time (df : List Row) (regions : List String) (ds de : Nat) : List Row :=
  df.filter (fun r => decide (r.region ∈ regions) && decide (ds ≤ r.date) && decide (r.date ≤ de))

/-- Model of `df_single['date'].max()` over a filtered frame (the fold's
initial value is irrelevant: the program only takes the max of a non-empty
frame). -/
def maxDate (l : List Row) : Nat := (l.map Row.date).foldl max 0

/-- Model of `df_single`: if the filtered frame is non-empty, keep exactly
the rows whose date equals the frame-wide maximum date. -/
def df_single (df : List Row) (regions : List String) (ds de : Nat) : List Row :=
  let t := df_time df regions ds de
  if t.isEmpty then t
  else t.filter (fun r => decide (r.date = maxDate t))

/-- Model of the Section-1 time-series view as the set of plotted points:
`px.line(df_time, y=selected_diseases)` draws one point per (row, selected
metric) pair, and with an empty disease selection the section renders
nothing. -/
def timeSeriesView (df : List Row) (regions metrics : List String) (ds de : Nat) :
    List (Row × String) :=
  (df_time df regions ds de).flatMap (fun r => metrics.map (fun m => (r, m)))

/-- Lexicographic code-point comparison of character lists — the string
order pandas and Python use when sorting region names. -/
def charListLtB : List Char → List Char → Bool
  | [], [] => false
  | [], _ :: _ => true
  | _ :: _, [] => false
  | a :: as, b :: bs =>
    decide (a.toNat < b.toNat) || (decide (a.toNat = b.toNat) && charListLtB as bs)

/-- Strict lexicographic order on strings by code point. -/
def strLt (a b : String) : Bool := charListLtB a.data b.data

/-- Lexicographic (region, date) ascending order between rows. -/
def regionDateLe (a b : Row) : Prop :=
  strLt a.region b.region = true ∨ (a.region = b.region ∧ a.date ≤ b.date)

instance : DecidableRel regionDateLe := fun a b => by
  unfold regionDateLe; infer_instance

/-- Sortedness of a view by (region, date) ascending. -/
def sortedByRegionDate (l : List Row) : Prop := l.Pairwise regionDateLe

instance (l : List Row) : Decidable (sortedByRegionDate l) := by
  unfold sortedByRegionDate; infer_instance

/-! ## Choropleth section (`latest`, `gdf`, `latest_filtered`, `merged`) -/

/-- Date comparison used by `latest.sort_values('date')`. -/
def dateLe (a b : Row) : Prop := a.date ≤ b.date

instance : DecidableRel dateLe := fun a b => Nat.decLe a.date b.date

instance : IsTotal Row dateLe := ⟨fun a b => Nat.le_total a.date b.date⟩

instance : IsTrans Row dateLe := ⟨fun _ _ _ => Nat.le_trans⟩

/-- Model of `latest = df.copy(); latest['region'] =
latest['region'].str.strip().str.title()`. -/
def mapLatest (df : List Row) : List Row :=
  df.map (fun r => { r with region := pyTitle (pyStrip r.region) })

/-- Model of the one-entry replacement map `{'Brong Ahafo': 'Brong-Ahafo'}`
(pandas `Series.replace` with a dict matches full cell values). -/
def brongFix (s : String) : String :=
  if s = "Brong Ahafo" then "Brong-Ahafo" else s

/-- Model of the boundary-side normalization chain: drop `' Region'`
(case-insensitively), strip, title-case, then the Brong-Ahafo replacement. -/
def gdfNormalize (s : String) : String :=
  brongFix (pyTitle (pyStrip (stripRegionWord s)))

/-- Model of the `gdf` read in the map section: the raw GeoJSON features
(re-read from the file, not the upper-cased `load_geojson` output) with the
`shapeName` normalization applied. -/
def mapGdf (fs : List Feature) : List Feature :=
  fs.map (fun f => { f with shapeName := gdfNormalize f.shapeName })

/-- Model of `latest.sort_values('date')` (a date-sorted permutation; pandas'
default quicksort fixes no tie order, and no claim depends on it). -/
def sortByDate (rows : List Row) : List Row := List.insertionSort dateLe rows

/-- Model of one group's `.last()` under `groupby('region')`: the last row
of the date-sorted frame that carries the given region key. -/
def lastForRegion (rows : List Row) (g : String) : Option Row :=
  ((sortByDate rows).filter (fun r => decide (r.region = g))).getLast?

/-- The distinct region keys of a frame (the groupby group keys). -/
def regionKeys (rows : List Row) : List String := (rows.map Row.region).dedup

/-- Model of `latest.sort_values('date').groupby('region').last()
.reset_index()`: one row per distinct region key, the latest-dated row of
its group. (pandas emits the groups sorted by key; no claim depends on the
order of this frame, only on its contents.) -/
def latest_filtered (rows : List Row) : List Row :=
  (regionKeys rows).filterMap (fun g => lastForRegion rows g)

/-- Merged row of the boundary-to-observation left join: the boundary
feature together with its matched observation row, `none` standing for the
NaN-filled (missing) observation columns. -/
structure MergedRow where
  feature : Feature
  row : Option Row
deriving DecidableEq, Repr

/-- Model of `gdf.merge(latest_filtered, how='left', left_on='shapeName',
right_on='region')`: every left feature is kept; a feature with no matching
observation row yields one merged row with missing observation values. -/
def leftMerge (gdf : List Feature) (rows : List Row) : List MergedRow :=
  gdf.flatMap (fun f =>
    match rows.filter (fun r => decide (r.region = f.shapeName)) with
    | [] => [⟨f, none⟩]
    | ms => ms.map (fun r => ⟨f, some r⟩))

/-- Model of `merged` in the map section. It is computed from the full
loaded `df` and the raw boundary features; the sidebar `FilterState`
argument is what the rest of the dashboard reacts to, and the map section
does not read it. (The subsequent drop of the `date` column is not
modelled: no claim mentions it.) -/
def dashboardMapData (df : List Row) (rawFeatures : List Feature) (fs : FilterState) :
    List MergedRow :=
  leftMerge (mapGdf rawFeatures) (latest_filtered (mapLatest df))

/-- Model of the choropleth shading input `columns=['shapeName',
map_disease_option]`: one (region key, optional value) pair per merged row,
`none` rendering as the `nan_fill_color`. -/
def choroplethShading (df : List Row) (rawFeatures : List Feature) (fs : FilterState)
    (mapDisease : String) : List (String × Option ℚ) :=
  (dashboardMapData df rawFeatures fs).map
    (fun e => (e.feature.shapeName, e.row.bind (fun r => r.values.lookup mapDisease)))

/-! ## Radar chart constants (Section 7.1) -/

/-- Model of `model_scores`: the hard-coded (R², RMSE, MAE, MAPE) tuples. -/
def model_scores : List (String × (ℚ × ℚ × ℚ × ℚ)) :=
  [("Random Forest", (0.9821, 6.39, 4.64, 2.56)),
   ("XGBoost", (0.9813, 6.54, 4.77, 2.64)),
   ("Ridge Regression", (0.9640, 9.08, 6.69, 3.69)),
   ("Support Vector Regression (SVR)", (0.9686, 8.47, 5.90, 3.17))]

/-- Expected maximum RMSE used for scaling. -/
def max_rmse : ℚ := 10

/-- Expected maximum MAE used for scaling. -/
def max_mae : ℚ := 10

/-- Expected maximum MAPE used for scaling. -/
def max_mape : ℚ := 10

/-- Model of the scaling step: R² unchanged, each error metric mapped to
`1 - value / expected-max`. -/
def scaleScores (s : ℚ × ℚ × ℚ × ℚ) : ℚ × ℚ × ℚ × ℚ :=
  (s.1, 1 - s.2.1 / max_rmse, 1 - s.2.2.1 / max_mae, 1 - s.2.2.2 / max_mape)

/-- Model of `model_scores_scaled`. -/
def model_scores_scaled : List (String × (ℚ × ℚ × ℚ × ℚ)) :=
  model_scores.map (fun p => (p.1, scaleScores p.2))

/-- The radial axis range fixed by `fig.update_layout` (`range=[0, 1]`). -/
def radialAxisRange : ℚ × ℚ := (0, 1)

/-- The canonical legacy-region names in the title-case convention the map
section uses. -/
def canonicalRegionsTitle : List String :=
  ["Greater Accra", "Ashanti", "Western", "Central", "Eastern",
   "Volta", "Northern", "Upper East", "Upper West", "Brong-Ahafo"]

/-! ## Auxiliary character and list lemmas -/

theorem toNat_ofNat_valid {n : Nat} (h : n.isValidChar) : (Char.ofNat n).toNat = n := by
  unfold Char.ofNat
  rw [dif_pos h]
  rfl

theorem char_eq_of_toNat_eq {a b : Char} (h : a.toNat = b.toNat) : a = b :=
  Char.eq_of_val_eq (UInt32.ext h)

theorem toNat_toUpper (c : Char) :
    c.toUpper.toNat = if 97 ≤ c.toNat ∧ c.toNat ≤ 122 then c.toNat - 32 else c.toNat := by
  unfold Char.toUpper
  split
  case isTrue h => rw [if_pos h]; exact toNat_ofNat_valid (Or.inl (by omega))
  case isFalse h => rw [if_neg h]

theorem toNat_toLower (c : Char) :
    c.toLower.toNat = if 65 ≤ c.toNat ∧ c.toNat ≤ 90 then c.toNat + 32 else c.toNat := by
  unfold Char.toLower
  split
  case isTrue h => rw [if_pos h]; exact toNat_ofNat_valid (Or.inl (by omega))
  case isFalse h => rw [if_neg h]

theorem toUpper_toUpper (c : Char) : c.toUpper.toUpper = c.toUpper := by
  apply char_eq_of_toNat_eq
  rw [toNat_toUpper, toNat_toUpper]
  by_cases h : 97 ≤ c.toNat ∧ c.toNat ≤ 122
  · rw [if_pos h, if_neg (by omega)]
  · simp only [if_neg h]

theorem toUpper_toLower (c : Char) : c.toLower.toUpper = c.toUpper := by
  apply char_eq_of_toNat_eq
  rw [toNat_toUpper, toNat_toUpper, toNat_toLower]
  by_cases h : 65 ≤ c.toNat ∧ c.toNat ≤ 90
  · rw [if_pos h, if_pos (by omega), if_neg (by omega)]
    omega
  · simp only [if_neg h]

theorem map_toUpper_idem (l : List Char) :
    (l.map Char.toUpper).map Char.toUpper = l.map Char.toUpper := by
  induction l with
  | nil => rfl
  | cons c cs ih => simp only [List.map_cons, toUpper_toUpper, ih]

theorem map_toUpper_of_map_toLower_eq : ∀ {l₁ l₂ : List Char},
    l₁.map Char.toLower = l₂.map Char.toLower → l₁.map Char.toUpper = l₂.map Char.toUpper
  | [], [], _ => rfl
  | [], _ :: _, h => by simp at h
  | _ :: _, [], h => by simp at h
  | c :: cs, d :: ds, h => by
    simp only [List.map_cons, List.cons.injEq] at h ⊢
    exact ⟨by rw [← toUpper_toLower c, h.1, toUpper_toLower], map_toUpper_of_map_toLower_eq h.2⟩

/-- Uppercasing is idempotent at the string level. -/
theorem pyUpper_pyUpper (s : String) : pyUpper (pyUpper s) = pyUpper s :=
  congrArg String.mk (map_toUpper_idem s.data)

/-- Uppercasing identifies exactly the casing variants of a string. -/
theorem pyUpper_eq_of_pyLower_eq {s t : String} (h : pyLower s = pyLower t) :
    pyUpper s = pyUpper t :=
  congrArg String.mk (map_toUpper_of_map_toLower_eq (congrArg String.data h))

/-- Padding a string with surrounding whitespace does not change its strip. -/
theorem pyStrip_pad (s : String) : pyStrip ⟨' ' :: (s.data ++ [' '])⟩ = pyStrip s := by
  show String.mk
      ((((' ' :: (s.data ++ [' '])).dropWhile Char.isWhitespace).reverse.dropWhile
        Char.isWhitespace).reverse) =
    String.mk
      (((s.data.dropWhile Char.isWhitespace).reverse.dropWhile Char.isWhitespace).reverse)
  rw [List.dropWhile_cons_of_pos (by decide), List.dropWhile_append]
  by_cases h : (s.data.dropWhile Char.isWhitespace).isEmpty
  · rw [if_pos h]
    rw [List.isEmpty_iff] at h
    rw [h]
    rfl
  · rw [if_neg h, List.reverse_append]
    rw [show ([' '] : List Char).reverse = [' '] from rfl, List.singleton_append,
      List.dropWhile_cons_of_pos (by decide)]

theorem lastForRegion_region {rows : List Row} {g : String} {r : Row}
    (h : lastForRegion rows g = some r) : r.region = g := by
  have hm : r ∈ (sortByDate rows).filter (fun x => decide (x.region = g)) :=
    List.mem_of_getLast?_eq_some h
  simpa using (List.of_mem_filter hm)

theorem lastForRegion_mem {rows : List Row} {g : String} {r : Row}
    (h : lastForRegion rows g = some r) : r ∈ rows := by
  have hm : r ∈ (sortByDate rows).filter (fun x => decide (x.region = g)) :=
    List.mem_of_getLast?_eq_some h
  exact (List.perm_insertionSort dateLe rows).subset (List.mem_of_mem_filter hm)

theorem lastForRegion_max {rows : List Row} {g : String} {r : Row}
    (h : lastForRegion rows g = some r) :
    ∀ y ∈ rows, y.region = g → y.date ≤ r.date := by
  intro y hy hreg
  have hsorted : (sortByDate rows).Pairwise dateLe :=
    List.sorted_insertionSort dateLe rows
  have hfsorted : ((sortByDate rows).filter (fun x => decide (x.region = g))).Pairwise dateLe :=
    hsorted.sublist (List.filter_sublist _)
  obtain ⟨ys, hys⟩ := List.getLast?_eq_some_iff.mp h
  have hymem : y ∈ (sortByDate rows).filter (fun x => decide (x.region = g)) := by
    refine List.mem_filter.mpr ⟨?_, by simpa using hreg⟩
    exact ((List.perm_insertionSort dateLe rows).symm.subset) hy
  rw [hys] at hfsorted hymem
  rcases List.mem_append.mp hymem with hyl | hyr
  · have := (List.pairwise_append.mp hfsorted).2.2 y hyl r (by simp)
    exact this
  · simp at hyr
    subst hyr
    exact Nat.le_refl _

theorem pairwise_ne_filterMap_lastForRegion (rows : List Row) :
    ∀ keys : List String, keys.Nodup →
      (keys.filterMap (lastForRegion rows)).Pairwise fun a b => a.region ≠ b.region := by
  intro keys
  induction keys with
  | nil => intro _; simp
  | cons g gs ih =>
    intro hnd
    rw [List.filterMap_cons]
    cases hfg : lastForRegion rows g with
    | none => exact ih hnd.of_cons
    | some r =>
      refine List.Pairwise.cons ?_ (ih hnd.of_cons)
      intro b hb
      obtain ⟨g', hg', hfg'⟩ := List.mem_filterMap.mp hb
      have hb' : b.region = g' := lastForRegion_region hfg'
      have hr : r.region = g := lastForRegion_region hfg
      have hgg : g ≠ g' := by
        intro hgg
        rw [hgg] at hnd
        exact (List.nodup_cons.mp hnd).1 hg'
      rw [hr, hb']
      exact hgg

theorem latest_filtered_regions_nodup (rows : List Row) :
    (latest_filtered rows).Pairwise fun a b => a.region ≠ b.region :=
  pairwise_ne_filterMap_lastForRegion rows (regionKeys rows) (List.nodup_dedup _)

theorem mem_df_single_iff (df : List Row) (regs : List String) (ds de : Nat) (r : Row) :
    r ∈ df_single df regs ds de ↔
      r ∈ df_time df regs ds de ∧ r.date = maxDate (df_time df regs ds de) := by
  unfold df_single
  by_cases h : (df_time df regs ds de).isEmpty
  · rw [if_pos h]
    rw [List.isEmpty_iff] at h
    simp [h]
  · rw [if_neg h]
    simp [List.mem_filter]

/-! ## Claims -/

/-- C1, counterexample: the loaders exclude nothing — a record whose region
string (here `"Atlantis"`) is neither a canonical name nor a known alias is
still present after loading, with a key outside the canonical 10-element
set, refuting the closure invariant as stated. -/
theorem C1_unknown_region_kept :
    ¬ (∀ r ∈ load_main_data [⟨"Atlantis", 0, []⟩], r.region ∈ canonicalRegions) := by
  decide

/-- C1, amended: the three loaders apply only uppercasing and exclude no
record: lengths are preserved, every input row survives with its region
uppercased, and a record whose uppercased region lies outside the canonical
set is retained in the collection rather than excluded. -/
theorem C1_loaders_drop_nothing (rows : List Row) (fs : List Feature) (frs : List ForecastRow) :
    (load_main_data rows).length = rows.length ∧
    (load_geojson fs).length = fs.length ∧
    (load_forecast frs).length = frs.length ∧
    (∀ r ∈ rows, { r with region := pyUpper r.region } ∈ load_main_data rows) ∧
    (∀ r ∈ rows, pyUpper r.region ∉ canonicalRegions →
      ∃ x ∈ load_main_data rows, x.region ∉ canonicalRegions) := by
  refine ⟨List.length_map _ _, List.length_map _ _, List.length_map _ _, ?_, ?_⟩
  · intro r hr
    exact List.mem_map_of_mem _ hr
  · intro r hr hout
    exact ⟨{ r with region := pyUpper r.region }, List.mem_map_of_mem _ hr, hout⟩

/-- C1, witness for the amended theorem at a concrete input. -/
theorem C1_loaders_drop_nothing_witness :
    ((⟨pyUpper ("Atlantis"), 0, []⟩ : Row) ∈ load_main_data [⟨"Atlantis", 0, []⟩]) ∧
    ∃ x ∈ load_main_data [⟨"Atlantis", 0, []⟩], x.region ∉ canonicalRegions := by
  constructor
  · exact (C1_loaders_drop_nothing [⟨"Atlantis", 0, []⟩] [] []).2.2.2.1
      ⟨"Atlantis", 0, []⟩ (by decide)
  · exact (C1_loaders_drop_nothing [⟨"Atlantis", 0, []⟩] [] []).2.2.2.2
      ⟨"Atlantis", 0, []⟩ (by decide) (by decide)

/-- C2, counterexample: the program mixes two casing conventions — the same
observation row is stored with key `"AHAFO"` by the loader and re-keyed
`"Ahafo"` by the choropleth section, so one single casing convention is not
applied uniformly across the places of the program. -/
theorem C2_mixed_conventions :
    ((load_main_data [⟨"Ahafo", 0, []⟩]).map Row.region = ["AHAFO"]) ∧
    ((mapLatest (load_main_data [⟨"Ahafo", 0, []⟩])).map Row.region = ["Ahafo"]) ∧
    ("AHAFO" : String) ≠ "Ahafo" := by
  decide

/-- C2, amended: the three loaders do share one single casing convention —
each stores exactly the uppercased raw key — but the choropleth section
separately re-normalizes its own copies to the title-case convention, so
uppercase and title-case keys coexist across the program. -/
theorem C2_loader_convention (rows : List Row) (fs : List Feature) (frs : List ForecastRow) :
    ((load_main_data rows).map Row.region = rows.map fun r => pyUpper r.region) ∧
    ((load_geojson fs).map Feature.shapeName = fs.map fun f => pyUpper f.shapeName) ∧
    ((load_forecast frs).map ForecastRow.region = frs.map fun r => pyUpper r.region) ∧
    ((mapLatest rows).map Row.region = rows.map fun r => pyTitle (pyStrip r.region)) := by
  refine ⟨?_, ?_, ?_, ?_⟩ <;>
    simp [load_main_data, load_geojson, load_forecast, mapLatest]

/-- C3, counterexample: with regions `A` and `B` both selected and in range,
`df_single` keeps only the rows at the frame-wide maximum date, so region
`B` — which has a qualifying row at date 1, but whose latest date is below
the global maximum 2 — is absent from the result, refuting the per-region
selection the claim states. -/
theorem C3_region_dropped :
    ("B" ∈ (["A", "B"] : List String)) ∧
    ((⟨"B", 1, []⟩ : Row) ∈ df_time [⟨"A", 1, []⟩, ⟨"A", 2, []⟩, ⟨"B", 1, []⟩] ["A", "B"] 0 10) ∧
    (∀ r ∈ df_single [⟨"A", 1, []⟩, ⟨"A", 2, []⟩, ⟨"B", 1, []⟩] ["A", "B"] 0 10,
      r.region ≠ "B") := by
  decide

/-- C3, amended: `df_single` contains exactly the in-range rows whose date
equals the frame-wide maximum date of the filtered frame (so a region whose
latest in-range date is earlier is absent, and ties at that date may give
several rows); the map-section view `latest_filtered` contains at most one
row per region, and each of its rows belongs to the input and carries the
maximum date among the rows of its region. -/
theorem C3_latest_views (df : List Row) (regs : List String) (ds de : Nat)
    (rows : List Row) (r : Row) :
    (r ∈ df_single df regs ds de ↔
      r ∈ df_time df regs ds de ∧ r.date = maxDate (df_time df regs ds de)) ∧
    ((latest_filtered rows).Pairwise fun a b => a.region ≠ b.region) ∧
    (∀ x ∈ latest_filtered rows, x ∈ rows ∧
      ∀ y ∈ rows, y.region = x.region → y.date ≤ x.date) := by
  refine ⟨mem_df_single_iff df regs ds de r, latest_filtered_regions_nodup rows, ?_⟩
  intro x hx
  obtain ⟨g, _, hfg⟩ := List.mem_filterMap.mp hx
  refine ⟨lastForRegion_mem hfg, ?_⟩
  intro y hy hreg
  exact lastForRegion_max hfg y hy (by rw [hreg, lastForRegion_region hfg])

/-- C3, witness for the amended theorem at a concrete input. -/
theorem C3_latest_views_witness :
    ((⟨"A", 5, []⟩ : Row) ∈ ([⟨"A", 3, []⟩, ⟨"B", 7, []⟩, ⟨"A", 5, []⟩] : List Row)) ∧
    ((⟨"A", 3, []⟩ : Row).date ≤ (⟨"A", 5, []⟩ : Row).date) := by
  have h := (C3_latest_views [] [] 0 0 [⟨"A", 3, []⟩, ⟨"B", 7, []⟩, ⟨"A", 5, []⟩]
    ⟨"A", 5, []⟩).2.2 ⟨"A", 5, []⟩ (by decide)
  exact ⟨h.1, h.2 ⟨"A", 3, []⟩ (by decide) (by decide)⟩

/-- C4: `df_time` returns exactly the stored rows whose region is selected
and whose date lies in the inclusive window — membership in the view is
equivalent to membership in the data plus the two filter conditions. -/
theorem C4_time_series_membership (df : List Row) (regs : List String) (ds de : Nat) (r : Row) :
    r ∈ df_time df regs ds de ↔
      r ∈ df ∧ r.region ∈ regs ∧ ds ≤ r.date ∧ r.date ≤ de := by
  simp [df_time, List.mem_filter, and_assoc]

/-- C5, counterexample: loader normalization is not whitespace-trimming — a
trailing-space variant of the same name yields a distinct stored key. -/
theorem C5_not_trimming :
    (load_main_data [⟨"AHAFO ", 0, []⟩]).map Row.region ≠
    (load_main_data [⟨"AHAFO", 0, []⟩]).map Row.region := by
  decide

/-- C5, amended: the loader normalization (uppercasing) is case-insensitive
(casing variants of one string normalize identically) and idempotent, and is
a no-op on canonical keys, but it does not trim whitespace; the separate
map-section normalization does trim surrounding whitespace and is a no-op on
title-case canonical keys on both the observation and the boundary side. -/
theorem C5_normalization_props (s t : String) :
    (pyLower s = pyLower t → pyUpper s = pyUpper t) ∧
    pyUpper (pyUpper s) = pyUpper s ∧
    pyStrip ⟨' ' :: (s.data ++ [' '])⟩ = pyStrip s ∧
    (∀ g ∈ canonicalRegions, pyUpper g = g) ∧
    (∀ g ∈ canonicalRegionsTitle, pyTitle (pyStrip g) = g ∧ gdfNormalize g = g) :=
  ⟨pyUpper_eq_of_pyLower_eq, pyUpper_pyUpper s, pyStrip_pad s, by decide, by decide⟩

/-- C5, witness for the amended theorem at concrete inputs. -/
theorem C5_normalization_props_witness :
    (pyUpper ("AhAfO") = pyUpper ("ahafo")) ∧
    (pyUpper ("ASHANTI") = "ASHANTI") ∧
    (pyTitle (pyStrip ("Brong-Ahafo")) = "Brong-Ahafo" ∧
      gdfNormalize ("Brong-Ahafo") = "Brong-Ahafo") := by
  refine ⟨?_, ?_, ?_⟩
  · exact (C5_normalization_props ("AhAfO") ("ahafo")).1 (by decide)
  · exact (C5_normalization_props ("") ("")).2.2.2.1 ("ASHANTI") (by decide)
  · exact (C5_normalization_props ("") ("")).2.2.2.2 ("Brong-Ahafo") (by decide)

/-- C6, counterexample: `df_time` performs no sort — for a data set stored
out of (region, date) order and a non-empty selection, the output is
non-empty and not sorted by (region, date) ascending. -/
theorem C6_unsorted_output :
    (df_time [⟨"B", 1, []⟩, ⟨"A", 1, []⟩] ["A", "B"] 0 2 ≠ []) ∧
    ¬ sortedByRegionDate (df_time [⟨"B", 1, []⟩, ⟨"A", 1, []⟩] ["A", "B"] 0 2) := by
  decide

/-- C6, amended: `df_time` preserves the stored row order (it only filters),
so its output is sorted by (region, date) ascending whenever the loaded data
set is; the code itself establishes no ordering. -/
theorem C6_filter_preserves_sorted (df : List Row) (regs : List String) (ds de : Nat)
    (h : sortedByRegionDate df) : sortedByRegionDate (df_time df regs ds de) :=
  h.sublist (List.filter_sublist df)

/-- C6, witness for the amended theorem at a concrete sorted input. -/
theorem C6_filter_preserves_sorted_witness :
    sortedByRegionDate (df_time [⟨"A", 1, []⟩, ⟨"A", 2, []⟩, ⟨"B", 1, []⟩] ["A"] 0 5) :=
  C6_filter_preserves_sorted [⟨"A", 1, []⟩, ⟨"A", 2, []⟩, ⟨"B", 1, []⟩] ["A"] 0 5 (by decide)

/-- C7: in the boundary-to-observation left join, a boundary feature whose
canonical region matches no observation row is retained in the merged
collection with its polygon and an explicitly missing value (`none`), and is
in particular not omitted. -/
theorem C7_unmatched_feature_retained (df : List Row) (rawFeatures : List Feature)
    (fstate : FilterState) (f : Feature) (hf : f ∈ mapGdf rawFeatures)
    (hmiss : ∀ r ∈ latest_filtered (mapLatest df), r.region ≠ f.shapeName) :
    (MergedRow.mk f none ∈ dashboardMapData df rawFeatures fstate) ∧
    ∃ e ∈ dashboardMapData df rawFeatures fstate, e.feature = f := by
  have hmem : MergedRow.mk f none ∈ dashboardMapData df rawFeatures fstate := by
    unfold dashboardMapData leftMerge
    refine List.mem_flatMap.mpr ⟨f, hf, ?_⟩
    have hfil : (latest_filtered (mapLatest df)).filter
        (fun r => decide (r.region = f.shapeName)) = [] := by
      rw [List.filter_eq_nil_iff]
      intro r hr
      simpa using hmiss r hr
    rw [hfil]
    simp
  exact ⟨hmem, ⟨MergedRow.mk f none, hmem, rfl⟩⟩

/-- C7, witness at a concrete input: a `"Greater Accra"` boundary feature
with no matching observation region survives the join with a missing value. -/
theorem C7_unmatched_feature_retained_witness :
    MergedRow.mk ⟨"Greater Accra", []⟩ none ∈
      dashboardMapData [⟨"ASHANTI", 1, []⟩] [⟨"Greater Accra", []⟩] ⟨[], [], 0, 0⟩ :=
  (C7_unmatched_feature_retained [⟨"ASHANTI", 1, []⟩] [⟨"Greater Accra", []⟩]
    ⟨[], [], 0, 0⟩ ⟨"Greater Accra", []⟩ (by decide) (by decide)).1

/-- C8: an empty region selection or an empty disease selection yields an
empty plotted result, and a date window with start after end yields an empty
result; the view functions are total, so no error is possible. -/
theorem C8_empty_selection (df : List Row) (regs ms : List String) (ds de : Nat) :
    timeSeriesView df [] ms ds de = [] ∧
    timeSeriesView df regs [] ds de = [] ∧
    (de < ds → timeSeriesView df regs ms ds de = []) := by
  refine ⟨?_, ?_, ?_⟩
  · have h : df_time df [] ds de = [] := by
      rw [df_time, List.filter_eq_nil_iff]
      intro r _
      simp
    rw [timeSeriesView, h]
    rfl
  · simp [timeSeriesView]
  · intro hlt
    have h : df_time df regs ds de = [] := by
      rw [df_time, List.filter_eq_nil_iff]
      intro r _
      simp only [Bool.and_eq_true, decide_eq_true_eq, not_and]
      rintro ⟨_, h1⟩ h2
      omega
    rw [timeSeriesView, h]
    rfl

/-- C8, witness for the start-after-end hypothesis at a concrete input. -/
theorem C8_empty_selection_witness :
    timeSeriesView [⟨"ASHANTI", 4, []⟩] ["ASHANTI"] ["hiv_incidence"] 5 3 = [] :=
  (C8_empty_selection [⟨"ASHANTI", 4, []⟩] ["ASHANTI"] ["hiv_incidence"] 5 3).2.2 (by decide)

/-- C9: the merged choropleth data is computed from the full unfiltered data
set — it is identical for any two sidebar filter states, and the shading
pairs depend only on the map-specific disease selector. -/
theorem C9_map_ignores_sidebar (df : List Row) (rawFeatures : List Feature)
    (fs1 fs2 : FilterState) (d : String) :
    dashboardMapData df rawFeatures fs1 = dashboardMapData df rawFeatures fs2 ∧
    choroplethShading df rawFeatures fs1 d = choroplethShading df rawFeatures fs2 d :=
  ⟨rfl, rfl⟩

/-- C10: every scaled radar-chart score of the four hard-coded models lies
within the radial axis range `[0, 1]`. -/
theorem C10_radar_in_range (m : String) (v : ℚ × ℚ × ℚ × ℚ)
    (h : (m, v) ∈ model_scores_scaled) :
    (radialAxisRange.1 ≤ v.1 ∧ v.1 ≤ radialAxisRange.2) ∧
    (radialAxisRange.1 ≤ v.2.1 ∧ v.2.1 ≤ radialAxisRange.2) ∧
    (radialAxisRange.1 ≤ v.2.2.1 ∧ v.2.2.1 ≤ radialAxisRange.2) ∧
    (radialAxisRange.1 ≤ v.2.2.2 ∧ v.2.2.2 ≤ radialAxisRange.2) := by
  simp only [model_scores_scaled, model_scores, List.map_cons, List.map_nil,
    List.mem_cons, List.not_mem_nil, or_false, Prod.mk.injEq] at h
  rcases h with ⟨_, hv⟩ | ⟨_, hv⟩ | ⟨_, hv⟩ | ⟨_, hv⟩ <;> subst hv <;>
    refine ⟨⟨?_, ?_⟩, ⟨?_, ?_⟩, ⟨?_, ?_⟩, ⟨?_, ?_⟩⟩ <;>
    norm_num [scaleScores, radialAxisRange, max_rmse, max_mae, max_mape]

/-- C10, witness at the Random Forest scores. -/
theorem C10_radar_in_range_witness :
    (radialAxisRange.1 ≤ (scaleScores (0.9821, 6.39, 4.64, 2.56)).1 ∧
      (scaleScores (0.9821, 6.39, 4.64, 2.56)).1 ≤ radialAxisRange.2) ∧
    (radialAxisRange.1 ≤ (scaleScores (0.9821, 6.39, 4.64, 2.56)).2.1 ∧
      (scaleScores (0.9821, 6.39, 4.64, 2.56)).2.1 ≤ radialAxisRange.2) ∧
    (radialAxisRange.1 ≤ (scaleScores (0.9821, 6.39, 4.64, 2.56)).2.2.1 ∧
      (scaleScores (0.9821, 6.39, 4.64, 2.56)).2.2.1 ≤ radialAxisRange.2) ∧
    (radialAxisRange.1 ≤ (scaleScores (0.9821, 6.39, 4.64, 2.56)).2.2.2 ∧
      (scaleScores (0.9821, 6.39, 4.64, 2.56)).2.2.2 ≤ radialAxisRange.2) :=
  C10_radar_in_range ("Random Forest") (scaleScores (0.9821, 6.39, 4.64, 2.56))
    (List.mem_map_of_mem _
      (show ("Random Forest", ((0.9821 : ℚ), (6.39 : ℚ), (4.64 : ℚ), (2.56 : ℚ))) ∈ model_scores
        by simp [model_scores]))

end Ghana
